import Mathlib

/-!
Shallow embedding of the stock-query pipeline in `src/stockapp/views.py`
(Korea-Exchange repository): the query interpreter `extract_stock_info`,
the ticker resolver `search_polygon_ticker`, the price-series matcher
`get_stock_data`, and the three APIView `post` handlers built on them.

External collaborators are modelled as explicit inputs:
the spaCy document is the pair of its entity list and token list, the
Polygon HTTP round trip is a `FetchOutcome` value, and the yfinance
historical series is a `List Row` argument.  Python exceptions are made
explicit with `Except PyError`.
-/

namespace KoreaExchange

/-- Python exceptions that the embedded code can raise or catch. -/
inductive PyError : Type
  /-- `ValueError`: raised by a tuple-unpack arity mismatch or by `float()`
  applied to non-numeric text. -/
  | valueError
  /-- `UnboundLocalError`: use of a local variable to which no assignment
  was executed. -/
  | unboundLocal
  /-- `requests.exceptions.ConnectionError`: transport-level failure raised
  by `requests.get`; NOT a subclass of `HTTPError`. -/
  | connectionError
deriving DecidableEq, Repr

/-- A named entity of the spaCy document: its surface text and its label
(`ent.text`, `ent.label_`). -/
structure Ent where
  text : String
  label : String
deriving DecidableEq, Repr

/-- A lexical token of the spaCy document: its surface text and its lemma
(`token.text`, `token.lemma_`). -/
structure Token where
  text : String
  lemma_ : String
deriving DecidableEq, Repr

/-- One row of the yfinance historical series: the trading date (as an
abstract ordinal, chronological order is numeric order) and the `Close`
price.  Prices are modelled as rationals standing for Python floats. -/
structure Row where
  date : Nat
  close : ℚ
deriving DecidableEq, Repr

/-- One item of `company_options` built by `search_polygon_ticker`. -/
structure Candidate where
  name : String
  ticker : String
  exchange : String
deriving DecidableEq, Repr

/-- One element of the Polygon response `results` array; any of the three
fields may be absent (`item.get(..., "N/A")` supplies the default). -/
structure TickerItem where
  name : Option String
  ticker : Option String
  primary_exchange : Option String
deriving DecidableEq, Repr

/-- Outcome of the `requests.get` round trip in `search_polygon_ticker`:
either a transport failure (raising `ConnectionError`) or an HTTP response
with a status code and a parsed `results` array. -/
inductive FetchOutcome : Type
  | connFailure
  | response (status : Nat) (results : List TickerItem)
deriving DecidableEq, Repr

/-- Python substring test `pat in s`. -/
def containsStr (s pat : String) : Bool :=
  decide (pat.toList <:+: s.toList)

/-- Python truthiness of an optional string: `not x` is true exactly when
`x` is `None` or the empty string. -/
def falsy : Option String → Bool
  | none => true
  | some s => s = ""

/-- Python `abs` on a number. -/
def pyAbs (x : ℚ) : ℚ := if x < 0 then -x else x

/-- Numeric value of a digit string (most significant digit first). -/
def digitsNat (l : List Char) : Nat :=
  l.foldl (fun a c => a * 10 + (c.toNat - 48)) 0

/-- Rational subtraction `a - b`, spelled out over numerators and
denominators via `mkRat` so that concrete instances evaluate by reduction
(`Rat.sub` itself is irreducible); `ratSub_eq` proves it equal to `a - b`. -/
def ratSub (a b : ℚ) : ℚ :=
  mkRat (a.num * (b.den : Int) - b.num * (a.den : Int)) (a.den * b.den)

/-- Value of the decimal numeral `ip.frac` (negated when `neg`), as a
single `mkRat` so that concrete instances evaluate by reduction. -/
def decimalValue (neg : Bool) (ip frac : List Char) : ℚ :=
  let n : Nat := digitsNat ip * 10 ^ frac.length + digitsNat frac
  mkRat (if neg then -(n : Int) else (n : Int)) (10 ^ frac.length)

/-- Value of Python `float(s)` on the decimal forms `[+-]digits`,
`[+-]digits.digits`, `[+-].digits` and `[+-]digits.`; `none` models the
`ValueError` that `float` raises on any other text.  (Exponent, infinity
and NaN forms never occur in the thresholds this pipeline handles.) -/
def pyFloat? (s : String) : Option ℚ :=
  let signed : Bool × List Char :=
    match s.toList with
    | '-' :: t => (true, t)
    | '+' :: t => (false, t)
    | t => (false, t)
  let intPart := signed.2.takeWhile Char.isDigit
  let rest := signed.2.dropWhile Char.isDigit
  match rest with
  | [] =>
    if intPart.isEmpty then none
    else some (decimalValue signed.1 intPart [])
  | '.' :: frac =>
    if frac.all Char.isDigit && !(intPart.isEmpty && frac.isEmpty) then
      some (decimalValue signed.1 intPart frac)
    else none
  | _ => none

/-- The entity labels that assign `price_threshold` in `extract_stock_info`
(`ent.label_ in ["MONEY", "CARDINAL"]`; the spec calls these categories
MONEY and NUMBER). -/
def isPriceEnt (e : Ent) : Bool :=
  e.label = "MONEY" || e.label = "CARDINAL"

/-- The entity labels that assign `stock_name` in `extract_stock_info`
(`ent.label_ in ["ORG", "GPE"]`; the spec calls these categories
ORGANIZATION and LOCATION). -/
def isCompanyEnt (e : Ent) : Bool :=
  e.label = "ORG" || e.label = "GPE"

/-- One step of the entity loop of `extract_stock_info`; the accumulator is
the pair `(stock_name, price_threshold)`. -/
def entStep (acc : Option String × Option String) (e : Ent) :
    Option String × Option String :=
  if isPriceEnt e then (acc.1, some e.text)
  else if isCompanyEnt e then (some e.text, acc.2)
  else acc

/-- Condition of the first branch of the keyword loop of
`extract_stock_info`: `"exceed" in token.lemma_ or "greater" in token.text
or "above" in token.text`. -/
def greaterTok (t : Token) : Bool :=
  containsStr t.lemma_ "exceed" || containsStr t.text "greater" || containsStr t.text "above"

/-- Condition of the `elif` branch of the keyword loop:
`"less" in token.text or "below" in token.text`. -/
def lessTok (t : Token) : Bool :=
  containsStr t.text "less" || containsStr t.text "below"

/-- A token matching either branch of the keyword loop. -/
def cmpTok (t : Token) : Bool := greaterTok t || lessTok t

/-- One step of the keyword loop of `extract_stock_info`; the accumulator is
the current `comparison_type`. -/
def tokStep (acc : String) (t : Token) : String :=
  if greaterTok t then "greater_than_equal"
  else if lessTok t then "less_than_equal"
  else acc

/-- `extract_stock_info(query)`: the spaCy document `nlp(query)` is passed
as its entity and token lists.  Returns the triple
`(stock_name, price_threshold, comparison_type)`. -/
def extract_stock_info (ents : List Ent) (toks : List Token) :
    Option String × Option String × String :=
  let p := ents.foldl entStep (none, none)
  let comparison_type := toks.foldl tokStep "greater_than_equal"
  (p.1, p.2, comparison_type)

/-- `search_polygon_ticker(company_name)`, with the HTTP round trip passed
as a `FetchOutcome`.  A transport failure propagates `ConnectionError`,
because the `except` clause names only `requests.exceptions.HTTPError`; an
error-status response makes `raise_for_status` raise `HTTPError`, which the
clause catches and turns into `[]`; otherwise each item of `results` is
mapped with `"N/A"` defaults. -/
def search_polygon_ticker (outcome : FetchOutcome) :
    Except PyError (List Candidate) :=
  match outcome with
  | .connFailure => .error .connectionError
  | .response status results =>
    if 400 ≤ status ∧ status < 600 then .ok []
    else .ok (results.map fun item =>
      { name := item.name.getD "N/A"
        ticker := item.ticker.getD "N/A"
        exchange := item.primary_exchange.getD "N/A" })

/-- Absolute difference between a row's close price and the parsed
threshold: the `price_diff` column, `abs(result["Close"] - float(price))`. -/
def priceDiff (p : ℚ) (r : Row) : ℚ := pyAbs (ratSub r.close p)

/-- Insertion of a row into a list already ordered by `price_diff`; the
`≤` comparison keeps rows with an equal difference in their existing
relative order. -/
def insertByDiff (p : ℚ) (r : Row) : List Row → List Row
  | [] => [r]
  | x :: xs =>
    if priceDiff p r ≤ priceDiff p x then r :: x :: xs
    else x :: insertByDiff p r xs

/-- `result.sort_values(by="price_diff")`: sort ascending by the
`price_diff` column, rows with equal difference keeping their original
(date) order. -/
def sortByDiff (p : ℚ) : List Row → List Row
  | [] => []
  | r :: rs => insertByDiff p r (sortByDiff p rs)

/-- The ranking order of the match output: strictly smaller `price_diff`,
or equal `price_diff` with a strictly earlier date. -/
def rankOrder (p : ℚ) (a b : Row) : Prop :=
  priceDiff p a < priceDiff p b ∨ (priceDiff p a = priceDiff p b ∧ a.date < b.date)

/-- `get_stock_data(ticker, price, comparison_type)`, with the series
`yf.Ticker(ticker).history(period="max")` passed as `hist`.  An empty
series returns `[]` at once.  The threshold is parsed by `float(price)`
inside the taken filter branch (`ValueError` on non-numeric text).  When
`comparison_type` is neither recognised value, no branch assigns `result`,
and the next line's use of `result` raises `UnboundLocalError`.  Otherwise
the surviving rows are sorted by `price_diff` and the first 10 `(Date,
Close)` pairs are returned. -/
def get_stock_data (hist : List Row) (price : String) (comparison_type : String) :
    Except PyError (List Row) :=
  if hist.isEmpty then .ok []
  else if comparison_type = "greater_than_equal" then
    match pyFloat? price with
    | none => .error .valueError
    | some p => .ok ((sortByDiff p (hist.filter fun r => p ≤ r.close)).take 10)
  else if comparison_type = "less_than_equal" then
    match pyFloat? price with
    | none => .error .valueError
    | some p => .ok ((sortByDiff p (hist.filter fun r => r.close ≤ p)).take 10)
  else .error .unboundLocal

/-- A JSON value appearing in a response body of these views. -/
inductive JVal : Type
  | s (v : String)
  | cands (v : List Candidate)
  | rows (v : List Row)
  /-- The DRF `serializer.errors` mapping (opaque here). -/
  | errs
deriving DecidableEq, Repr

/-- A DRF `Response`: HTTP status code and JSON object body, the body kept
as its ordered field list. -/
structure Resp where
  status : Nat
  body : List (String × JVal)
deriving DecidableEq, Repr

/-- A network call to an external provider, recorded in order of issue. -/
inductive NetCall : Type
  | polygonSearch (company : String)
deriving DecidableEq, Repr

/-- `StockQueryAPIView.post`.  `valid` is the verdict of
`StockQuerySerializer.is_valid()`; the spaCy document of the validated
query is `(ents, toks)`; `outcome` is the Polygon round trip that
`search_polygon_ticker` would perform.  The second component records the
network calls actually issued.  Missing company or price (Python falsy:
`not company or not price`) returns HTTP 400 before any call. -/
def stock_query_post (valid : Bool) (ents : List Ent) (toks : List Token)
    (outcome : FetchOutcome) : Except PyError Resp × List NetCall :=
  if valid then
    let extracted := extract_stock_info ents toks
    let company := extracted.1
    let price := extracted.2.1
    let comparison_type := extracted.2.2
    if falsy company || falsy price then
      (.ok ⟨400, [("error", .s "Unable to extract stock information")]⟩, [])
    else
      let calls := [NetCall.polygonSearch (company.getD "")]
      match search_polygon_ticker outcome with
      | .error e => (.error e, calls)
      | .ok company_options =>
        if company_options.length = 0 then
          (.ok ⟨404, [("error", .s "No stock data available for the given query")]⟩, calls)
        else
          (.ok ⟨200, [("company_options", .cands company_options),
                      ("price", .s (price.getD "")),
                      ("comparison_type", .s comparison_type)]⟩, calls)
  else (.ok ⟨400, [("serializer_errors", .errs)]⟩, [])

/-- `StockDataSearchAPIView.post`.  `valid` is the serializer verdict and
`ticker`, `price`, `comparison_type` its validated fields; `hist` is the
series yfinance returns for `ticker` inside `get_stock_data`.  Note the
success body spells the third key `"comparsion_type"` (sic, as in the
source). -/
def stock_data_search_post (valid : Bool)
    (ticker price comparison_type : String) (hist : List Row) :
    Except PyError Resp :=
  if valid then
    match get_stock_data hist price comparison_type with
    | .error e => .error e
    | .ok stock_data =>
      if stock_data.length = 0 then
        .ok ⟨404, [("Error", .s "No stock data found for the given query")]⟩
      else
        .ok ⟨200, [("ticker", .s ticker),
                   ("price", .s price),
                   ("comparsion_type", .s comparison_type),
                   ("stock_data", .rows stock_data)]⟩
  else .ok ⟨400, [("serializer_errors", .errs)]⟩

/-- Python assignment `a, b = t` where `t` is a 3-tuple: the unpack arity
mismatch raises `ValueError` (too many values to unpack) unconditionally. -/
def unpack2of3 {α β γ : Type} (_t : α × β × γ) : Except PyError (α × β) :=
  .error .valueError

/-- Result of `StockExportExcelAPIView.post`: either a DRF JSON response or
the `HttpResponse` spreadsheet attachment (filename and exported rows). -/
inductive ExportResult : Type
  | response (r : Resp)
  | excel (filename : String) (rows : List Row)
deriving DecidableEq, Repr

/-- `StockExportExcelAPIView.post`.  The line
`stock_symbol, price = extract_stock_info(query)` unpacks the function's
3-tuple into two targets, which raises `ValueError` outside any
`try`; the remaining body (falsy check, `get_stock_data` guarded by
`try/except` mapping any exception to HTTP 404, then the Excel
attachment) is embedded after that unpack and is unreachable. -/
def stock_export_excel_post (valid : Bool) (ents : List Ent)
    (toks : List Token) (hist : List Row) : Except PyError ExportResult :=
  if valid then
    match unpack2of3 (extract_stock_info ents toks) with
    | .error e => .error e
    | .ok (stock_symbol, price) =>
      if falsy stock_symbol || falsy price then
        .ok (.response ⟨400, [("error", .s "Unable to extract stock information")]⟩)
      else
        match get_stock_data hist (price.getD "") "greater_than_equal" with
        | .error _ => .ok (.response ⟨404, [("error", .s "Failed to retrieve stock data")]⟩)
        | .ok data => .ok (.excel ((stock_symbol.getD "") ++ "_stock_data.xlsx") data)
  else .ok (.response ⟨400, [("serializer_errors", .errs)]⟩)

deriving instance DecidableEq for Except

/-- The `mkRat` spelling of subtraction used by `priceDiff` agrees with
rational subtraction. -/
lemma ratSub_eq (a b : ℚ) : ratSub a b = a - b := by
  have ha : ((a.den : ℚ)) ≠ 0 := Nat.cast_ne_zero.mpr a.den_nz
  have hb : ((b.den : ℚ)) ≠ 0 := Nat.cast_ne_zero.mpr b.den_nz
  conv_rhs => rw [← Rat.num_div_den a, ← Rat.num_div_den b]
  rw [ratSub, Rat.mkRat_eq_div]
  push_cast
  field_simp
  ring

/-- An entity whose label assigns the price can never also assign the
company: the two label sets are disjoint. -/
lemma isPriceEnt_not_company {e : Ent} (h : isPriceEnt e = true) :
    isCompanyEnt e = false := by
  simp only [isPriceEnt, Bool.or_eq_true, decide_eq_true_eq] at h
  rcases h with h | h <;> simp [isCompanyEnt, h]

/-- The entity loop leaves `price_threshold` at the text of the last
MONEY/CARDINAL entity, falling back to the accumulator. -/
lemma foldl_entStep_snd (ents : List Ent) (acc : Option String × Option String) :
    (ents.foldl entStep acc).2 =
      ((ents.reverse.find? isPriceEnt).map Ent.text).or acc.2 := by
  induction ents generalizing acc with
  | nil => simp
  | cons e es ih =>
    rw [List.foldl_cons, ih, List.reverse_cons, List.find?_append]
    cases hfind : es.reverse.find? isPriceEnt with
    | some u => simp
    | none =>
      by_cases hp : isPriceEnt e <;>
        by_cases hc : isCompanyEnt e <;>
          simp [entStep, hp, hc]

/-- The entity loop leaves `stock_name` at the text of the last ORG/GPE
entity, falling back to the accumulator. -/
lemma foldl_entStep_fst (ents : List Ent) (acc : Option String × Option String) :
    (ents.foldl entStep acc).1 =
      ((ents.reverse.find? isCompanyEnt).map Ent.text).or acc.1 := by
  induction ents generalizing acc with
  | nil => simp
  | cons e es ih =>
    rw [List.foldl_cons, ih, List.reverse_cons, List.find?_append]
    cases hfind : es.reverse.find? isCompanyEnt with
    | some u => simp
    | none =>
      by_cases hp : isPriceEnt e
      · simp [entStep, hp, isPriceEnt_not_company hp]
      · by_cases hc : isCompanyEnt e <;> simp [entStep, hp, hc]

/-- The keyword loop resolves `comparison_type` by the last matching token,
falling back to the accumulator; a token matching both branches counts as
the `if` branch (greater). -/
lemma foldl_tokStep (toks : List Token) (acc : String) :
    toks.foldl tokStep acc =
      match toks.reverse.find? cmpTok with
      | some t => if greaterTok t then "greater_than_equal" else "less_than_equal"
      | none => acc := by
  induction toks generalizing acc with
  | nil => simp
  | cons t ts ih =>
    rw [List.foldl_cons, ih, List.reverse_cons, List.find?_append]
    cases hfind : ts.reverse.find? cmpTok with
    | some u => simp
    | none =>
      by_cases hg : greaterTok t <;>
        by_cases hl : lessTok t <;>
          simp [tokStep, cmpTok, hg, hl]

/-- C2: `extract_stock_info` sets `price_threshold` to the text of the last
entity (in appearance order) labelled MONEY or CARDINAL (the spec's MONEY
and NUMBER categories), and `stock_name` to the text of the last entity
labelled ORG or GPE (the spec's ORGANIZATION and LOCATION categories); in
particular with MONEY entities "100" then "150", the threshold is "150". -/
theorem extract_stock_info_last_entity (ents : List Ent) (toks : List Token) :
    (extract_stock_info ents toks).2.1 = (ents.reverse.find? isPriceEnt).map Ent.text ∧
    (extract_stock_info ents toks).1 = (ents.reverse.find? isCompanyEnt).map Ent.text ∧
    (extract_stock_info [⟨"100", "MONEY"⟩, ⟨"150", "MONEY"⟩] []).2.1 = some "150" := by
  refine ⟨?_, ?_, ?_⟩
  · show (ents.foldl entStep (none, none)).2 = _
    rw [foldl_entStep_snd]
    cases ents.reverse.find? isPriceEnt <;> simp
  · show (ents.foldl entStep (none, none)).1 = _
    rw [foldl_entStep_fst]
    cases ents.reverse.find? isCompanyEnt <;> simp
  · rfl

/-- C3: `extract_stock_info` resolves `comparison_type` by scanning tokens
in order, the last token matching the exceed/greater/above or less/below
patterns winning (the `if` branch taking priority on a token matching
both), and defaults to `greater_than_equal` when no token matches; in
particular "above" followed by "below" yields `less_than_equal`. -/
theorem extract_stock_info_last_keyword (ents : List Ent) (toks : List Token) :
    ((extract_stock_info ents toks).2.2 =
      match toks.reverse.find? cmpTok with
      | some t => if greaterTok t then "greater_than_equal" else "less_than_equal"
      | none => "greater_than_equal") ∧
    (extract_stock_info [] [⟨"above", "above"⟩, ⟨"below", "below"⟩]).2.2 =
      "less_than_equal" := by
  constructor
  · exact foldl_tokStep toks "greater_than_equal"
  · decide

/-- The ranking order implies a non-strict `price_diff` inequality. -/
lemma rankOrder_le {p : ℚ} {a b : Row} (h : rankOrder p a b) :
    priceDiff p a ≤ priceDiff p b := by
  rcases h with h | ⟨h, _⟩
  · exact le_of_lt h
  · exact le_of_eq h

/-- Membership in an insertion. -/
lemma mem_insertByDiff {p : ℚ} {r x : Row} {l : List Row} :
    x ∈ insertByDiff p r l ↔ x = r ∨ x ∈ l := by
  induction l with
  | nil => simp [insertByDiff]
  | cons y ys ih =>
    rw [insertByDiff]
    split
    · simp
    · simp only [List.mem_cons, ih]
      tauto

/-- The sort is a permutation at the level of membership. -/
lemma mem_sortByDiff {p : ℚ} {x : Row} {l : List Row} :
    x ∈ sortByDiff p l ↔ x ∈ l := by
  induction l with
  | nil => simp [sortByDiff]
  | cons r rs ih =>
    rw [sortByDiff, mem_insertByDiff]
    simp [ih]

/-- Inserting a row that is dated before everything in a ranked list keeps
the list ranked: it lands before every row of equal `price_diff`. -/
lemma insertByDiff_pairwise {p : ℚ} {r : Row} {l : List Row}
    (hl : l.Pairwise (rankOrder p)) (hd : ∀ x ∈ l, r.date < x.date) :
    (insertByDiff p r l).Pairwise (rankOrder p) := by
  induction l with
  | nil => simp [insertByDiff, rankOrder]
  | cons x xs ih =>
    rcases List.pairwise_cons.mp hl with ⟨hx, hxs⟩
    rw [insertByDiff]
    split_ifs with hle
    · refine List.pairwise_cons.mpr ⟨?_, hl⟩
      intro y hy
      rcases List.mem_cons.mp hy with rfl | hy
      · rcases lt_or_eq_of_le hle with h | h
        · exact Or.inl h
        · exact Or.inr ⟨h, hd y (List.mem_cons_self _ _)⟩
      · have hxy : priceDiff p x ≤ priceDiff p y := rankOrder_le (hx y hy)
        rcases lt_or_eq_of_le (le_trans hle hxy) with h | h
        · exact Or.inl h
        · exact Or.inr ⟨h, hd y (List.mem_cons_of_mem _ hy)⟩
    · push_neg at hle
      refine List.pairwise_cons.mpr
        ⟨?_, ih hxs fun y hy => hd y (List.mem_cons_of_mem _ hy)⟩
      intro y hy
      rcases mem_insertByDiff.mp hy with rfl | hy
      · exact Or.inl hle
      · exact hx y hy

/-- Sorting a date-ascending list by `price_diff` yields a list ranked by
`price_diff` with ties in date order. -/
lemma sortByDiff_pairwise {p : ℚ} {l : List Row}
    (h : l.Pairwise fun a b => a.date < b.date) :
    (sortByDiff p l).Pairwise (rankOrder p) := by
  induction l with
  | nil => simp [sortByDiff]
  | cons r rs ih =>
    rcases List.pairwise_cons.mp h with ⟨hr, hrs⟩
    rw [sortByDiff]
    exact insertByDiff_pairwise (ih hrs) fun x hx => hr x (mem_sortByDiff.mp hx)

/-- Evaluation of `get_stock_data` on a non-empty series in the
greater-than-equal branch. -/
lemma get_stock_data_gte {hist : List Row} {price : String} {p : ℚ}
    (hne : hist ≠ []) (hp : pyFloat? price = some p) :
    get_stock_data hist price "greater_than_equal" =
      .ok ((sortByDiff p (hist.filter fun r => p ≤ r.close)).take 10) := by
  simp [get_stock_data, hne, hp]

/-- Evaluation of `get_stock_data` on a non-empty series in the
less-than-equal branch. -/
lemma get_stock_data_lte {hist : List Row} {price : String} {p : ℚ}
    (hne : hist ≠ []) (hp : pyFloat? price = some p) :
    get_stock_data hist price "less_than_equal" =
      .ok ((sortByDiff p (hist.filter fun r => r.close ≤ p)).take 10) := by
  simp [get_stock_data, hne, hp]

/-- C1: for every series, threshold and direction, a successful
`get_stock_data` result has at most 10 rows and is ordered by
non-decreasing `price_diff`, rows of equal `price_diff` appearing in
ascending date order (the stable tie-break by original date order of the
date-ascending input series). -/
theorem get_stock_data_ranked (hist : List Row) (price ct : String) (p : ℚ)
    (out : List Row) (hp : pyFloat? price = some p)
    (hct : ct = "greater_than_equal" ∨ ct = "less_than_equal")
    (hsorted : hist.Pairwise fun a b => a.date < b.date)
    (hout : get_stock_data hist price ct = .ok out) :
    out.length ≤ 10 ∧ out.Pairwise (rankOrder p) := by
  by_cases hne : hist = []
  · subst hne
    have : ([] : List Row) = out := by
      simpa [get_stock_data] using hout
    subst this
    simp
  · have main : ∀ q : Row → Bool,
        ((sortByDiff p (hist.filter q)).take 10).length ≤ 10 ∧
        ((sortByDiff p (hist.filter q)).take 10).Pairwise (rankOrder p) := by
      intro q
      refine ⟨List.length_take_le 10 _, ?_⟩
      exact List.Pairwise.sublist (List.take_sublist 10 _)
        (sortByDiff_pairwise (List.Pairwise.filter q hsorted))
    rcases hct with rfl | rfl
    · rw [get_stock_data_gte hne hp] at hout
      simp only [Except.ok.injEq] at hout
      subst hout
      exact main _
    · rw [get_stock_data_lte hne hp] at hout
      simp only [Except.ok.injEq] at hout
      subst hout
      exact main _

/-- Witness for C1 at a concrete tied series. -/
theorem get_stock_data_ranked_witness :
    (pyFloat? "150" = some 150 ∧
      ([⟨0, 160⟩, ⟨1, 140⟩, ⟨2, 160⟩] : List Row).Pairwise
        (fun a b => a.date < b.date) ∧
      get_stock_data [⟨0, 160⟩, ⟨1, 140⟩, ⟨2, 160⟩] "150" "greater_than_equal"
        = .ok [⟨0, 160⟩, ⟨2, 160⟩]) ∧
    (([⟨0, 160⟩, ⟨2, 160⟩] : List Row).length ≤ 10 ∧
      ([⟨0, 160⟩, ⟨2, 160⟩] : List Row).Pairwise (rankOrder 150)) :=
  ⟨⟨by decide, by decide, by decide⟩,
    get_stock_data_ranked [⟨0, 160⟩, ⟨1, 140⟩, ⟨2, 160⟩] "150"
      "greater_than_equal" 150 [⟨0, 160⟩, ⟨2, 160⟩] (by decide) (Or.inl rfl)
      (by decide) (by decide)⟩

/-- C6: on a non-empty series, `get_stock_data` ranks and truncates exactly
the rows whose close price is at or above the parsed threshold in the
greater-than-equal direction, and exactly those at or below it in the
less-than-equal direction. -/
theorem get_stock_data_filter_exact (hist : List Row) (price : String) (p : ℚ)
    (hp : pyFloat? price = some p) (hne : hist ≠ []) :
    (∃ l, get_stock_data hist price "greater_than_equal"
        = .ok ((sortByDiff p l).take 10) ∧
      List.Sublist l hist ∧ ∀ r ∈ hist, (r ∈ l ↔ p ≤ r.close)) ∧
    (∃ l, get_stock_data hist price "less_than_equal"
        = .ok ((sortByDiff p l).take 10) ∧
      List.Sublist l hist ∧ ∀ r ∈ hist, (r ∈ l ↔ r.close ≤ p)) := by
  constructor
  · refine ⟨hist.filter fun r => p ≤ r.close, get_stock_data_gte hne hp,
      List.filter_sublist _, ?_⟩
    intro r hr
    simp [List.mem_filter, hr]
  · refine ⟨hist.filter fun r => r.close ≤ p, get_stock_data_lte hne hp,
      List.filter_sublist _, ?_⟩
    intro r hr
    simp [List.mem_filter, hr]

/-- Witness for C6 at a concrete two-row series. -/
theorem get_stock_data_filter_exact_witness :
    (pyFloat? "150" = some 150 ∧ ([⟨0, 160⟩, ⟨1, 140⟩] : List Row) ≠ []) ∧
    ((∃ l, get_stock_data [⟨0, 160⟩, ⟨1, 140⟩] "150" "greater_than_equal"
        = .ok ((sortByDiff 150 l).take 10) ∧
      List.Sublist l [⟨0, 160⟩, ⟨1, 140⟩] ∧
      ∀ r ∈ ([⟨0, 160⟩, ⟨1, 140⟩] : List Row), (r ∈ l ↔ 150 ≤ r.close)) ∧
    (∃ l, get_stock_data [⟨0, 160⟩, ⟨1, 140⟩] "150" "less_than_equal"
        = .ok ((sortByDiff 150 l).take 10) ∧
      List.Sublist l [⟨0, 160⟩, ⟨1, 140⟩] ∧
      ∀ r ∈ ([⟨0, 160⟩, ⟨1, 140⟩] : List Row), (r ∈ l ↔ r.close ≤ 150))) :=
  ⟨⟨by decide, by decide⟩,
    get_stock_data_filter_exact [⟨0, 160⟩, ⟨1, 140⟩] "150" 150
      (by decide) (by decide)⟩

/-- C7: on an empty provider series, `get_stock_data` returns the empty
list as a successful (non-raising) result, for every threshold text and
comparison direction. -/
theorem get_stock_data_empty_series (price ct : String) :
    get_stock_data [] price ct = .ok [] := rfl

/-- C10: on a non-empty series with a `comparison_type` other than the two
recognised values, neither filter branch assigns `result`, and the
following use of `result` raises `UnboundLocalError`. -/
theorem get_stock_data_invalid_comparison (hist : List Row) (price ct : String)
    (hne : hist ≠ []) (h1 : ct ≠ "greater_than_equal")
    (h2 : ct ≠ "less_than_equal") :
    get_stock_data hist price ct = .error PyError.unboundLocal := by
  simp [get_stock_data, hne, h1, h2]

/-- Witness for C10 at a concrete series and comparison string. -/
theorem get_stock_data_invalid_comparison_witness :
    (([⟨0, 160⟩] : List Row) ≠ [] ∧ "equal" ≠ "greater_than_equal" ∧
      "equal" ≠ "less_than_equal") ∧
    get_stock_data [⟨0, 160⟩] "150" "equal" = .error PyError.unboundLocal :=
  ⟨by decide,
    get_stock_data_invalid_comparison [⟨0, 160⟩] "150" "equal"
      (by decide) (by decide) (by decide)⟩

/-- C4 counterexample: on a transport failure (a connection failure), the
resolver propagates the `ConnectionError` to its caller instead of
returning the empty candidate sequence, because the `except` clause names
only `HTTPError`. -/
theorem search_polygon_ticker_conn_failure_propagates :
    search_polygon_ticker FetchOutcome.connFailure
        = .error PyError.connectionError ∧
    search_polygon_ticker FetchOutcome.connFailure ≠ .ok [] := by
  constructor
  · rfl
  · decide

/-- C4 amended: on an HTTP error-status response (4xx or 5xx, in particular
HTTP 500), `raise_for_status` raises `HTTPError`, the handler catches it,
and the resolver returns the empty candidate sequence rather than
propagating an exception. -/
theorem search_polygon_ticker_http_error_empty (st : Nat)
    (results : List TickerItem) (h4 : 400 ≤ st) (h6 : st < 600) :
    search_polygon_ticker (.response st results) = .ok [] := by
  simp [search_polygon_ticker, h4, h6]

/-- Witness for the amended C4 at an HTTP 500 response with one result. -/
theorem search_polygon_ticker_http_error_empty_witness :
    (400 ≤ 500 ∧ 500 < 600) ∧
    search_polygon_ticker
        (.response 500 [⟨some "Apple Inc.", some "AAPL", some "XNAS"⟩])
      = .ok [] :=
  ⟨by decide,
    search_polygon_ticker_http_error_empty 500
      [⟨some "Apple Inc.", some "AAPL", some "XNAS"⟩] (by decide) (by decide)⟩

/-- C5: for every request the `StockQuerySerializer` accepts, the
spreadsheet-export handler raises `ValueError` — the assignment
`stock_symbol, price = extract_stock_info(query)` unpacks the function's
3-tuple into two targets outside any `try` — instead of returning a
response; shown in general and at the concrete query of the end-to-end
scenario. -/
theorem stock_export_excel_post_unpack_error :
    (∀ (ents : List Ent) (toks : List Token) (hist : List Row),
      stock_export_excel_post true ents toks hist
        = .error PyError.valueError) ∧
    stock_export_excel_post true [⟨"Apple", "ORG"⟩, ⟨"150", "MONEY"⟩]
        [⟨"exceed", "exceed"⟩] [⟨0, 160⟩]
      = .error PyError.valueError := by
  exact ⟨fun ents toks hist => rfl, rfl⟩

/-- C8: when interpretation leaves the company reference or the price
threshold absent, the query endpoint returns the HTTP 400 validation
response and the list of issued network calls is empty, whatever the
Polygon round trip would have produced. -/
theorem stock_query_post_validation_before_network (ents : List Ent)
    (toks : List Token) (outcome : FetchOutcome)
    (h : (extract_stock_info ents toks).1 = none ∨
      (extract_stock_info ents toks).2.1 = none) :
    stock_query_post true ents toks outcome =
      (.ok ⟨400, [("error", .s "Unable to extract stock information")]⟩, []) := by
  have hf : (falsy (extract_stock_info ents toks).1 ||
      falsy (extract_stock_info ents toks).2.1) = true := by
    rcases h with h | h <;> simp [h, falsy]
  simp [stock_query_post, hf]

/-- Witness for C8 at a query with a company but no extractable price. -/
theorem stock_query_post_validation_before_network_witness :
    (extract_stock_info [⟨"Apple", "ORG"⟩] []).2.1 = none ∧
    stock_query_post true [⟨"Apple", "ORG"⟩] [] .connFailure =
      (.ok ⟨400, [("error", .s "Unable to extract stock information")]⟩, []) :=
  ⟨by decide,
    stock_query_post_validation_before_network [⟨"Apple", "ORG"⟩] []
      .connFailure (Or.inr (by decide))⟩

/-- C9 counterexample: a successful direct-search response carries the keys
`ticker`, `price`, `comparsion_type` (sic) and `stock_data`; the claimed
key `comparison_type` is not among them. -/
theorem stock_data_search_post_key_misspelled :
    (stock_data_search_post true "AAPL" "150" "greater_than_equal"
        [⟨0, 160⟩]).map (fun r => r.body.map Prod.fst)
      = .ok ["ticker", "price", "comparsion_type", "stock_data"] ∧
    "comparison_type" ∉ ["ticker", "price", "comparsion_type", "stock_data"] := by
  constructor
  · decide
  · decide

/-- C9 amended: every successful (HTTP 200) direct-search response has
exactly the fields `ticker`, `price`, `comparsion_type` (spelled as in the
source) and `stock_data`, in that order. -/
theorem stock_data_search_post_success_keys (ticker price ct : String)
    (hist : List Row) (r : Resp)
    (h : stock_data_search_post true ticker price ct hist = .ok r)
    (h200 : r.status = 200) :
    r.body.map Prod.fst = ["ticker", "price", "comparsion_type", "stock_data"] := by
  rw [stock_data_search_post, if_pos rfl] at h
  cases hg : get_stock_data hist price ct with
  | error e =>
    rw [hg] at h
    simp at h
  | ok sd =>
    rw [hg] at h
    dsimp only at h
    by_cases hz : sd.length = 0
    · rw [if_pos hz] at h
      simp only [Except.ok.injEq] at h
      subst h
      simp at h200
    · rw [if_neg hz] at h
      simp only [Except.ok.injEq] at h
      subst h
      rfl

/-- Witness for the amended C9 at a concrete successful search. -/
theorem stock_data_search_post_success_keys_witness :
    (stock_data_search_post true "AAPL" "150" "greater_than_equal" [⟨0, 160⟩]
        = .ok ⟨200, [("ticker", .s "AAPL"), ("price", .s "150"),
                     ("comparsion_type", .s "greater_than_equal"),
                     ("stock_data", .rows [⟨0, 160⟩])]⟩) ∧
    ([("ticker", JVal.s "AAPL"), ("price", JVal.s "150"),
      ("comparsion_type", JVal.s "greater_than_equal"),
      ("stock_data", JVal.rows [⟨0, 160⟩])].map Prod.fst
      = ["ticker", "price", "comparsion_type", "stock_data"]) :=
  ⟨by decide,
    stock_data_search_post_success_keys "AAPL" "150" "greater_than_equal"
      [⟨0, 160⟩]
      ⟨200, [("ticker", .s "AAPL"), ("price", .s "150"),
             ("comparsion_type", .s "greater_than_equal"),
             ("stock_data", .rows [⟨0, 160⟩])]⟩ (by decide) rfl⟩

end KoreaExchange
